import Mathlib

/-!
Verification of the raster terrain-analysis pipeline
(src/scripts/compute_terrain_analysis.py).

Floating-point samples are modelled as exact reals; IEEE NaN is modelled as
the extra value `none` of `Option ℝ`, with arithmetic that propagates it and
with every ordering comparison against it false, matching numpy semantics on
the operations the script uses.  Grids are row-major lists of rows.
-/

noncomputable section

/-- A floating-point sample: `some x` is an ordinary value, `none` is NaN. -/
abbrev V : Type := Option ℝ

/-- NaN-propagating addition. -/
def vAdd : V → V → V
  | some a, some b => some (a + b)
  | _, _ => none

/-- NaN-propagating multiplication (note `NaN * 0 = NaN`, as in IEEE). -/
def vMul : V → V → V
  | some a, some b => some (a * b)
  | _, _ => none

/-- NaN-propagating subtraction. -/
def vSub : V → V → V
  | some a, some b => some (a - b)
  | _, _ => none

/-- Multiplication by an ordinary (never-NaN) scalar, e.g. a kernel weight. -/
def vSmul (w : ℝ) : V → V
  | some a => some (w * a)
  | none => none

/-- Division by an ordinary nonzero constant (used for `np.mean` over 8 items). -/
def vDivC (v : V) (d : ℝ) : V := v.map (fun a => a / d)

/-- `np.sqrt`, NaN-propagating (inputs here are sums of squares, hence ≥ 0). -/
def vSqrt : V → V := Option.map Real.sqrt

/-- `np.arctan`, NaN-propagating. -/
def vArctan : V → V := Option.map Real.arctan

/-- Conversion from radians to degrees, `np.degrees`. -/
def degOf (x : ℝ) : ℝ := x * (180 / Real.pi)

/-- `np.degrees` lifted to samples. -/
def vDeg : V → V := Option.map degOf

/-- A raster grid: row-major list of rows of samples. -/
abbrev Grid : Type := List (List V)

/-- Cell lookup in any list-of-rows structure: `none` when out of range. -/
def cellAt {α : Type} (g : List (List α)) (r c : ℕ) : Option α :=
  match g[r]? with
  | some row => row[c]?
  | none => none

/-- Reading a grid sample with the constant-NaN padding used by
`scipy.ndimage.convolve(mode=constant, cval=nan)`: any index outside the
grid yields NaN. -/
def gget (g : Grid) (r c : ℤ) : V :=
  if r < 0 ∨ c < 0 then none
  else ((g[r.toNat]?).bind (fun row => row[c.toNat]?)).getD none

/-- The number of columns, `shape[1]` of a (rectangular) grid. -/
def gwidth : Grid → ℕ
  | [] => 0
  | row :: _ => row.length

/-- The grid is rectangular with `H` rows and `W` columns. -/
def Rect (g : Grid) (H W : ℕ) : Prop :=
  g.length = H ∧ ∀ row ∈ g, row.length = W

/-- Every sample of the grid equals the ordinary value `v`. -/
def Flat (g : Grid) (v : ℝ) : Prop :=
  ∀ row ∈ g, ∀ x ∈ row, x = some v

/-- Shape statement: `H` rows, each of length `W`. -/
def gridDims {α : Type} (g : List (List α)) (H W : ℕ) : Prop :=
  g.length = H ∧ ∀ row ∈ g, row.length = W

/-- Build an `H × W` grid from a per-cell function (row-major). -/
def gridOfFn {α : Type} (H W : ℕ) (f : ℕ → ℕ → α) : List (List α) :=
  (List.range H).map (fun r => (List.range W).map (fun c => f r c))

/-- A 3×3 stencil of ordinary real weights, indexed `0..2 × 0..2`. -/
abbrev Kernel : Type := ℕ → ℕ → ℝ

/-- Zevenbergen & Thorne x-kernel `[[-1,0,1],[-2,0,2],[-1,0,1]] / (8·cellsize)`. -/
def ztKernelX (cellsize : ℝ) : Kernel := fun i j =>
  (match i, j with
   | 0, 0 => (-1 : ℝ) | 0, 1 => 0 | 0, 2 => 1
   | 1, 0 => -2       | 1, 1 => 0 | 1, 2 => 2
   | 2, 0 => -1       | 2, 1 => 0 | 2, 2 => 1
   | _, _ => 0) / (8 * cellsize)

/-- Zevenbergen & Thorne y-kernel `[[-1,-2,-1],[0,0,0],[1,2,1]] / (8·cellsize)`. -/
def ztKernelY (cellsize : ℝ) : Kernel := fun i j =>
  (match i, j with
   | 0, 0 => (-1 : ℝ) | 0, 1 => -2 | 0, 2 => -1
   | 1, 0 => 0        | 1, 1 => 0  | 1, 2 => 0
   | 2, 0 => 1        | 2, 1 => 2  | 2, 2 => 1
   | _, _ => 0) / (8 * cellsize)

/-- Horn x-kernel `[[-1,0,1],[-1,0,1],[-1,0,1]] / (6·cellsize)`. -/
def hornKernelX (cellsize : ℝ) : Kernel := fun i j =>
  (match i, j with
   | 0, 0 => (-1 : ℝ) | 0, 1 => 0 | 0, 2 => 1
   | 1, 0 => -1       | 1, 1 => 0 | 1, 2 => 1
   | 2, 0 => -1       | 2, 1 => 0 | 2, 2 => 1
   | _, _ => 0) / (6 * cellsize)

/-- Horn y-kernel `[[-1,-1,-1],[0,0,0],[1,1,1]] / (6·cellsize)`. -/
def hornKernelY (cellsize : ℝ) : Kernel := fun i j =>
  (match i, j with
   | 0, 0 => (-1 : ℝ) | 0, 1 => -1 | 0, 2 => -1
   | 1, 0 => 0        | 1, 1 => 0  | 1, 2 => 0
   | 2, 0 => 1        | 2, 1 => 1  | 2, 2 => 1
   | _, _ => 0) / (6 * cellsize)

/-- One output sample of `scipy.ndimage.convolve(input, W, mode=constant,
cval=nan)`: per the scipy definition, `C[i] = Σ_j W[j] · I[i + k − j]` with
centre `k = (1,1)`, i.e. the kernel is point-reflected across its centre
(true convolution, not correlation).  The nine terms are written out with the
scipy index pairs `j = (0,0) … (2,2)`. -/
def convCell (g : Grid) (k : Kernel) (r c : ℤ) : V :=
  vAdd (vSmul (k 0 0) (gget g (r + 1) (c + 1)))
    (vAdd (vSmul (k 0 1) (gget g (r + 1) c))
      (vAdd (vSmul (k 0 2) (gget g (r + 1) (c - 1)))
        (vAdd (vSmul (k 1 0) (gget g r (c + 1)))
          (vAdd (vSmul (k 1 1) (gget g r c))
            (vAdd (vSmul (k 1 2) (gget g r (c - 1)))
              (vAdd (vSmul (k 2 0) (gget g (r - 1) (c + 1)))
                (vAdd (vSmul (k 2 1) (gget g (r - 1) c))
                  (vSmul (k 2 2) (gget g (r - 1) (c - 1))))))))))

/-- The gradient grid: `scipy.ndimage.convolve` applied to the whole input,
same shape as the input. -/
def convolve (g : Grid) (k : Kernel) : Grid :=
  gridOfFn g.length (gwidth g) (fun r c => convCell g k r c)

/-- Formalisation of the claimed contract, in the claim's own words:
`output[r][c] = Σ_{dr,dc ∈ {-1,0,1}} input[r+dr][c+dc] · kernel[dr+1][dc+1]`
(correlation: the kernel is NOT point-reflected), with out-of-bounds
neighbours read as NaN.  Multiplication of a sample by the (ordinary real)
kernel weight is written with the weight on the left, which is the same
operation since real multiplication commutes and the weight is never NaN. -/
def specGradCell (g : Grid) (k : Kernel) (r c : ℤ) : V :=
  vAdd (vSmul (k 0 0) (gget g (r - 1) (c - 1)))
    (vAdd (vSmul (k 0 1) (gget g (r - 1) c))
      (vAdd (vSmul (k 0 2) (gget g (r - 1) (c + 1)))
        (vAdd (vSmul (k 1 0) (gget g r (c - 1)))
          (vAdd (vSmul (k 1 1) (gget g r c))
            (vAdd (vSmul (k 1 2) (gget g r (c + 1)))
              (vAdd (vSmul (k 2 0) (gget g (r + 1) (c - 1)))
                (vAdd (vSmul (k 2 1) (gget g (r + 1) c))
                  (vSmul (k 2 2) (gget g (r + 1) (c + 1))))))))))

/-- The amended contract: the same neighbourhood sum but with the kernel
point-reflected, `output[r][c] = Σ_{dr,dc} input[r+dr][c+dc] ·
kernel[1−dr][1−dc]`, with out-of-bounds neighbours read as NaN. -/
def specGradCellFlip (g : Grid) (k : Kernel) (r c : ℤ) : V :=
  vAdd (vSmul (k 2 2) (gget g (r - 1) (c - 1)))
    (vAdd (vSmul (k 2 1) (gget g (r - 1) c))
      (vAdd (vSmul (k 2 0) (gget g (r - 1) (c + 1)))
        (vAdd (vSmul (k 1 2) (gget g r (c - 1)))
          (vAdd (vSmul (k 1 1) (gget g r c))
            (vAdd (vSmul (k 1 0) (gget g r (c + 1)))
              (vAdd (vSmul (k 0 2) (gget g (r + 1) (c - 1)))
                (vAdd (vSmul (k 0 1) (gget g (r + 1) c))
                  (vSmul (k 0 0) (gget g (r + 1) (c + 1))))))))))

theorem vAdd_comm (a b : V) : vAdd a b = vAdd b a := by
  cases a <;> cases b <;> simp [vAdd, add_comm]

theorem vAdd_assoc (a b c : V) : vAdd (vAdd a b) c = vAdd a (vAdd b c) := by
  cases a <;> cases b <;> cases c <;> simp [vAdd, add_assoc]

instance : Std.Associative vAdd := ⟨vAdd_assoc⟩

instance : Std.Commutative vAdd := ⟨vAdd_comm⟩

theorem convCell_eq_flip (g : Grid) (k : Kernel) (r c : ℤ) :
    convCell g k r c = specGradCellFlip g k r c := by
  unfold convCell specGradCellFlip
  ac_rfl

theorem cellAt_gridOfFn {α : Type} (H W : ℕ) (f : ℕ → ℕ → α) (r c : ℕ)
    (hr : r < H) (hc : c < W) : cellAt (gridOfFn H W f) r c = some (f r c) := by
  simp [cellAt, gridOfFn, List.getElem?_map, List.getElem?_range, hr, hc]

theorem gridDims_gridOfFn {α : Type} (H W : ℕ) (f : ℕ → ℕ → α) :
    gridDims (gridOfFn H W f) H W := by
  constructor
  · simp [gridOfFn]
  · intro row hrow
    simp only [gridOfFn, List.mem_map] at hrow
    obtain ⟨r, _, rfl⟩ := hrow
    simp

theorem gwidth_of_rect {g : Grid} {H W : ℕ} (hR : Rect g H W) (hH : 0 < H) :
    gwidth g = W := by
  obtain ⟨hlen, hrow⟩ := hR
  cases g with
  | nil => simp at hlen; omega
  | cons row rest => exact hrow row (by simp)

/-- C1 (amended): for every rectangular input grid, every 3×3 kernel and
every in-bounds cell, the gradient grid produced by the convolution equals
the neighbourhood sum with the kernel point-reflected
(`Σ input[r+dr][c+dc] · kernel[1−dr][1−dc]`), out-of-bounds neighbours being
NaN (constant padding, not zero and not a clamped edge value). -/
theorem convolve_is_flipped_kernel_sum (g : Grid) (H W : ℕ) (k : Kernel)
    (r c : ℕ) (hR : Rect g H W) (hr : r < H) (hc : c < W) :
    cellAt (convolve g k) r c = some (specGradCellFlip g k r c) := by
  have hH : 0 < H := (Nat.zero_le r).trans_lt hr
  have hlen : g.length = H := hR.1
  have hw : gwidth g = W := gwidth_of_rect hR hH
  rw [convolve, hlen, hw, cellAt_gridOfFn H W _ r c hr hc, convCell_eq_flip]

/-- The concrete 3×3 grid with rows `[0,1,2]` used to separate correlation
from convolution. -/
def gC1 : Grid :=
  [[some 0, some 1, some 2], [some 0, some 1, some 2], [some 0, some 1, some 2]]

/-- C1 (counterexample): on `gC1` with the Zevenbergen–Thorne x-kernel at
cell (1,1), the code's gradient is −1 while the claimed (non-reflected)
formula gives +1: the claim's correlation contract does not hold. -/
theorem convolution_claim_counterexample :
    cellAt (convolve gC1 (ztKernelX 1)) 1 1 = some (some (-1)) ∧
    specGradCell gC1 (ztKernelX 1) 1 1 = some 1 ∧
    (some (-1 : ℝ) : V) ≠ (some 1 : V) := by
  have h22 : gget gC1 (1 + 1) (1 + 1) = some 2 := rfl
  have h21 : gget gC1 (1 + 1) 1 = some 1 := rfl
  have h20 : gget gC1 (1 + 1) (1 - 1) = some 0 := rfl
  have h12 : gget gC1 1 (1 + 1) = some 2 := rfl
  have h11 : gget gC1 1 1 = some 1 := rfl
  have h10 : gget gC1 1 (1 - 1) = some 0 := rfl
  have h02 : gget gC1 (1 - 1) (1 + 1) = some 2 := rfl
  have h01 : gget gC1 (1 - 1) 1 = some 1 := rfl
  have h00 : gget gC1 (1 - 1) (1 - 1) = some 0 := rfl
  refine ⟨?_, ?_, by norm_num⟩
  · have h : cellAt (convolve gC1 (ztKernelX 1)) 1 1 =
        some (convCell gC1 (ztKernelX 1) 1 1) := by
      rw [convolve]
      exact cellAt_gridOfFn _ _ _ 1 1 (by simp [gC1]) (by simp [gC1, gwidth])
    rw [h, convCell, h22, h21, h20, h12, h11, h10, h02, h01, h00]
    simp only [ztKernelX, vSmul, vAdd]
    norm_num
  · rw [specGradCell, h22, h21, h20, h12, h11, h10, h02, h01, h00]
    simp only [ztKernelX, vSmul, vAdd]
    norm_num

/-- C1 (witness for the amended theorem): instantiated on `gC1`, the
ZT x-kernel and cell (1,1). -/
theorem convolve_is_flipped_kernel_sum_witness :
    cellAt (convolve gC1 (ztKernelX 1)) 1 1 =
      some (specGradCellFlip gC1 (ztKernelX 1) 1 1) :=
  convolve_is_flipped_kernel_sum gC1 3 3 (ztKernelX 1) 1 1
    (by constructor <;> simp [gC1]) (by norm_num) (by norm_num)

/-- IEEE `atan2 y x` on ordinary (non-NaN) inputs, as `np.arctan2` computes
it.  (Our value model has no signed zero; the only inputs where that could
matter are normalised away downstream, see `compute_aspect`.) -/
def atan2 (y x : ℝ) : ℝ :=
  if 0 < x then Real.arctan (y / x)
  else if x < 0 then
    (if 0 ≤ y then Real.arctan (y / x) + Real.pi
     else Real.arctan (y / x) - Real.pi)
  else
    (if 0 < y then Real.pi / 2
     else if y < 0 then -(Real.pi / 2)
     else 0)

/-- Floored real remainder, the semantics of numpy `%` on floats with a
positive modulus. -/
def rmod (x m : ℝ) : ℝ := x - m * (Int.floor (x / m) : ℝ)

/-- One sample of the slope-in-degrees grid:
`np.degrees(np.arctan(np.sqrt(grad_x**2 + grad_y**2)))` with the gradients
from the given kernel pair. -/
def slopeCell (dtm : Grid) (kx ky : Kernel) (r c : ℤ) : V :=
  vDeg (vArctan (vSqrt (vAdd
    (vMul (convCell dtm kx r c) (convCell dtm kx r c))
    (vMul (convCell dtm ky r c) (convCell dtm ky r c)))))

/-- Algorithm name accepted by `compute_slope` (the default). -/
def algZT : String := "zevenbergen_thorne"

/-- The second algorithm name accepted by `compute_slope`. -/
def algHorn : String := "horn"

/-- `compute_slope`: picks the kernel family by name, raises `ValueError`
for any other name before any gradient is computed, otherwise returns the
slope grid in degrees. -/
def compute_slope (dtm : Grid) (cellsize : ℝ) (algorithm : String) :
    Except String Grid :=
  if algorithm = algZT then
    Except.ok (gridOfFn dtm.length (gwidth dtm)
      (fun r c => slopeCell dtm (ztKernelX cellsize) (ztKernelY cellsize) r c))
  else if algorithm = algHorn then
    Except.ok (gridOfFn dtm.length (gwidth dtm)
      (fun r c => slopeCell dtm (hornKernelX cellsize) (hornKernelY cellsize) r c))
  else
    Except.error ("Unknown algorithm: " ++ algorithm)

/-- One sample of the raw aspect grid before the flat-cell overwrite:
`(np.degrees(np.arctan2(grad_y, -grad_x)) + 360) % 360`, NaN whenever either
gradient is NaN.  The gradients are always the Zevenbergen–Thorne ones. -/
def aspectRawCell (dtm : Grid) (cellsize : ℝ) (r c : ℤ) : V :=
  match convCell dtm (ztKernelY cellsize) r c,
        convCell dtm (ztKernelX cellsize) r c with
  | some gy, some gx => some (rmod (degOf (atan2 gy (-gx)) + 360) 360)
  | _, _ => none

/-- One sample of the aspect grid: `np.where(slope_deg < 1.0, -1, aspect_deg)`
with the slope recomputed from the same ZT gradients; a NaN slope compares
false so the raw (NaN) aspect is kept. -/
def aspectCell (dtm : Grid) (cellsize : ℝ) (r c : ℤ) : V :=
  match slopeCell dtm (ztKernelX cellsize) (ztKernelY cellsize) r c with
  | some s => if s < 1 then some (-1) else aspectRawCell dtm cellsize r c
  | none => aspectRawCell dtm cellsize r c

/-- `compute_aspect`: the aspect grid, same shape as the input. -/
def compute_aspect (dtm : Grid) (cellsize : ℝ) : Grid :=
  gridOfFn dtm.length (gwidth dtm) (fun r c => aspectCell dtm cellsize r c)

/-- The root-mean-square elevation difference between a cell and its
8-connected neighbours: `np.sqrt(np.mean([(center − n)**2 for n in
neighbors]))`, the body of `compute_tri`'s double loop, with the neighbours
in the source's listing order (NW, N, NE, W, E, SW, S, SE). -/
def triRMS (dtm : Grid) (i j : ℤ) : V :=
  vSqrt (vDivC
    (vAdd (vMul (vSub (gget dtm i j) (gget dtm (i - 1) (j - 1)))
                (vSub (gget dtm i j) (gget dtm (i - 1) (j - 1))))
      (vAdd (vMul (vSub (gget dtm i j) (gget dtm (i - 1) j))
                  (vSub (gget dtm i j) (gget dtm (i - 1) j)))
        (vAdd (vMul (vSub (gget dtm i j) (gget dtm (i - 1) (j + 1)))
                    (vSub (gget dtm i j) (gget dtm (i - 1) (j + 1))))
          (vAdd (vMul (vSub (gget dtm i j) (gget dtm i (j - 1)))
                      (vSub (gget dtm i j) (gget dtm i (j - 1))))
            (vAdd (vMul (vSub (gget dtm i j) (gget dtm i (j + 1)))
                        (vSub (gget dtm i j) (gget dtm i (j + 1))))
              (vAdd (vMul (vSub (gget dtm i j) (gget dtm (i + 1) (j - 1)))
                          (vSub (gget dtm i j) (gget dtm (i + 1) (j - 1))))
                (vAdd (vMul (vSub (gget dtm i j) (gget dtm (i + 1) j))
                            (vSub (gget dtm i j) (gget dtm (i + 1) j)))
                  (vMul (vSub (gget dtm i j) (gget dtm (i + 1) (j + 1)))
                        (vSub (gget dtm i j) (gget dtm (i + 1) (j + 1)))))))))))
    8)

/-- One sample of the TRI grid: `np.zeros_like` leaves the border ring at 0;
an interior cell `(i, j)` (the double loop runs `1 ≤ i < H−1`,
`1 ≤ j < W−1`) gets the RMS difference to its 8 neighbours. -/
def triCell (dtm : Grid) (H W : ℕ) (i j : ℕ) : V :=
  if 1 ≤ i ∧ i + 1 < H ∧ 1 ≤ j ∧ j + 1 < W then triRMS dtm i j else some 0

/-- `compute_tri`: the Terrain Ruggedness Index grid, same shape as the
input, border ring fixed at 0. -/
def compute_tri (dtm : Grid) : Grid :=
  gridOfFn dtm.length (gwidth dtm) (fun i j => triCell dtm dtm.length (gwidth dtm) i j)

/-- An RGB triple, each channel a `uint8` value. -/
abbrev RGB : Type := ℕ × ℕ × ℕ

/-- Classify one sample against an ordered list of half-open bins
`(lower, upper, colour)`: starting from the `np.zeros` black, each mask
`(s >= lower) & (s < upper)` in turn overwrites the colour.  A NaN sample
fails every comparison and stays black. -/
def classifyCell (table : List (ℝ × ℝ × RGB)) (v : V) : RGB :=
  table.foldl
    (fun acc bin =>
      match v with
      | some x => if bin.1 ≤ x ∧ x < bin.2.1 then bin.2.2 else acc
      | none => acc)
    (0, 0, 0)

/-- Colour scheme name accepted by `colorize_slope` (the default). -/
def schemeSkitour : String := "skitour"

/-- The second colour scheme name accepted by `colorize_slope`. -/
def schemeClimbing : String := "climbing"

/-- The `skitour` scheme: `zip(bins[:-1], bins[1:])` of `[0,20,45,90]`
paired with green, yellow, red. -/
def skitourTable : List (ℝ × ℝ × RGB) :=
  [(0, 20, (0, 200, 0)), (20, 45, (255, 255, 0)), (45, 90, (255, 0, 0))]

/-- The `climbing` scheme: `zip(bins[:-1], bins[1:])` of `[0,20,35,50,90]`
paired with blue, green, yellow, red. -/
def climbingTable : List (ℝ × ℝ × RGB) :=
  [(0, 20, (0, 0, 255)), (20, 35, (0, 255, 0)), (35, 50, (255, 255, 0)),
   (50, 90, (255, 0, 0))]

/-- `colorize_slope`: raises `ValueError` for an unknown scheme name before
any colour is assigned, otherwise classifies every cell. -/
def colorize_slope (slope : Grid) (algorithm : String) :
    Except String (List (List RGB)) :=
  if algorithm = schemeSkitour then
    Except.ok (gridOfFn slope.length (gwidth slope)
      (fun r c => classifyCell skitourTable (gget slope r c)))
  else if algorithm = schemeClimbing then
    Except.ok (gridOfFn slope.length (gwidth slope)
      (fun r c => classifyCell climbingTable (gget slope r c)))
  else
    Except.error ("Unknown algorithm: " ++ algorithm)

/-- The nine compass sectors of `colorize_aspect` (the N sector appears
twice because of the 337.5°–360° wraparound). -/
def aspectDirTable : List (ℝ × ℝ × RGB) :=
  [(0, 22.5, (255, 0, 0)), (22.5, 67.5, (255, 255, 0)),
   (67.5, 112.5, (0, 255, 0)), (112.5, 157.5, (0, 255, 255)),
   (157.5, 202.5, (0, 0, 255)), (202.5, 247.5, (255, 0, 255)),
   (247.5, 292.5, (255, 255, 255)), (292.5, 337.5, (255, 165, 0)),
   (337.5, 360, (255, 0, 0))]

/-- One sample of the colorized aspect: sector masks first, then the flat
mask `aspect == -1` overwrites with mid-gray. -/
def colorizeAspectCell (v : V) : RGB :=
  if v = some (-1) then (128, 128, 128) else classifyCell aspectDirTable v

/-- `colorize_aspect`: 8-direction compass colours plus gray flat cells. -/
def colorize_aspect (aspect : Grid) : List (List RGB) :=
  gridOfFn aspect.length (gwidth aspect) (fun r c => colorizeAspectCell (gget aspect r c))

/-- The red band of a colour grid. -/
def bandR (rgb : List (List RGB)) : List (List ℕ) :=
  rgb.map (fun row => row.map (fun t => t.1))

/-- The green band of a colour grid. -/
def bandG (rgb : List (List RGB)) : List (List ℕ) :=
  rgb.map (fun row => row.map (fun t => t.2.1))

/-- The blue band of a colour grid. -/
def bandB (rgb : List (List RGB)) : List (List ℕ) :=
  rgb.map (fun row => row.map (fun t => t.2.2))

/-- `main`'s wiring of the aspect product: `compute_aspect(dtm, cellsize=1.0)`
is called whatever `--slope-algorithm` was selected; the selection reaches
only `compute_slope`. -/
def pipelineAspect (slopeAlgorithm : String) (dtm : Grid) : Grid :=
  compute_aspect dtm 1

/-- The per-cell value constraint claimed for aspect grids: the flat
sentinel −1, or an ordinary value in `[0, 360)`. -/
def aspectValueOK (a : V) : Prop :=
  a = some (-1) ∨ ∃ x : ℝ, a = some x ∧ 0 ≤ x ∧ x < 360

/-- Claim C5 as stated, for one grid: every in-bounds cell of the aspect
output satisfies `aspectValueOK`. -/
def aspectClaimC5 (g : Grid) (H W : ℕ) : Prop :=
  ∀ r c : ℕ, r < H → c < W →
    ∃ a, cellAt (compute_aspect g 1) r c = some a ∧ aspectValueOK a

theorem vAdd_none_right (v : V) : vAdd v none = none := by cases v <;> rfl

theorem vAdd_none_left (v : V) : vAdd none v = none := rfl

theorem vSmul_none (w : ℝ) : vSmul w none = none := rfl

theorem gget_flat {g : Grid} {H W : ℕ} {v : ℝ} (hR : Rect g H W) (hF : Flat g v)
    {r c : ℤ} (hr0 : 0 ≤ r) (hrH : r < (H : ℤ)) (hc0 : 0 ≤ c) (hcW : c < (W : ℤ)) :
    gget g r c = some v := by
  have hrn : r.toNat < g.length := by rw [hR.1]; omega
  have hrow_mem : g[r.toNat] ∈ g := List.getElem_mem hrn
  have hrow_len : (g[r.toNat]).length = W := hR.2 _ hrow_mem
  have hcn : c.toNat < (g[r.toNat]).length := by rw [hrow_len]; omega
  have helem : (g[r.toNat])[c.toNat] ∈ g[r.toNat] := List.getElem_mem hcn
  have hval : (g[r.toNat])[c.toNat] = some v := hF _ hrow_mem _ helem
  rw [gget, if_neg (by omega)]
  rw [List.getElem?_eq_getElem hrn]
  simp [List.getElem?_eq_getElem hcn, hval]

theorem convCell_flat {g : Grid} {H W : ℕ} {v : ℝ} (hR : Rect g H W)
    (hF : Flat g v) (k : Kernel) {r c : ℤ} (h1 : 1 ≤ r) (h2 : r + 1 < (H : ℤ))
    (h3 : 1 ≤ c) (h4 : c + 1 < (W : ℤ)) :
    convCell g k r c =
      some ((k 0 0 + k 0 1 + k 0 2 + k 1 0 + k 1 1 + k 1 2 +
             k 2 0 + k 2 1 + k 2 2) * v) := by
  have epp : gget g (r + 1) (c + 1) = some v :=
    gget_flat hR hF (by omega) (by omega) (by omega) (by omega)
  have ep0 : gget g (r + 1) c = some v :=
    gget_flat hR hF (by omega) (by omega) (by omega) (by omega)
  have epm : gget g (r + 1) (c - 1) = some v :=
    gget_flat hR hF (by omega) (by omega) (by omega) (by omega)
  have e0p : gget g r (c + 1) = some v :=
    gget_flat hR hF (by omega) (by omega) (by omega) (by omega)
  have e00 : gget g r c = some v :=
    gget_flat hR hF (by omega) (by omega) (by omega) (by omega)
  have e0m : gget g r (c - 1) = some v :=
    gget_flat hR hF (by omega) (by omega) (by omega) (by omega)
  have emp : gget g (r - 1) (c + 1) = some v :=
    gget_flat hR hF (by omega) (by omega) (by omega) (by omega)
  have em0 : gget g (r - 1) c = some v :=
    gget_flat hR hF (by omega) (by omega) (by omega) (by omega)
  have emm : gget g (r - 1) (c - 1) = some v :=
    gget_flat hR hF (by omega) (by omega) (by omega) (by omega)
  rw [convCell, epp, ep0, epm, e0p, e00, e0m, emp, em0, emm]
  simp only [vSmul, vAdd, Option.some.injEq]
  ring

theorem slopeCell_flat_zt {g : Grid} {H W : ℕ} {v : ℝ} (hR : Rect g H W)
    (hF : Flat g v) (cs : ℝ) {r c : ℤ} (h1 : 1 ≤ r) (h2 : r + 1 < (H : ℤ))
    (h3 : 1 ≤ c) (h4 : c + 1 < (W : ℤ)) :
    slopeCell g (ztKernelX cs) (ztKernelY cs) r c = some 0 := by
  have hx : convCell g (ztKernelX cs) r c = some 0 := by
    rw [convCell_flat hR hF _ h1 h2 h3 h4]
    simp only [ztKernelX, Option.some.injEq]
    ring
  have hy : convCell g (ztKernelY cs) r c = some 0 := by
    rw [convCell_flat hR hF _ h1 h2 h3 h4]
    simp only [ztKernelY, Option.some.injEq]
    ring
  rw [slopeCell, hx, hy]
  simp [vMul, vAdd, vSqrt, vArctan, vDeg, degOf]

theorem slopeCell_flat_horn {g : Grid} {H W : ℕ} {v : ℝ} (hR : Rect g H W)
    (hF : Flat g v) (cs : ℝ) {r c : ℤ} (h1 : 1 ≤ r) (h2 : r + 1 < (H : ℤ))
    (h3 : 1 ≤ c) (h4 : c + 1 < (W : ℤ)) :
    slopeCell g (hornKernelX cs) (hornKernelY cs) r c = some 0 := by
  have hx : convCell g (hornKernelX cs) r c = some 0 := by
    rw [convCell_flat hR hF _ h1 h2 h3 h4]
    simp only [hornKernelX, Option.some.injEq]
    ring
  have hy : convCell g (hornKernelY cs) r c = some 0 := by
    rw [convCell_flat hR hF _ h1 h2 h3 h4]
    simp only [hornKernelY, Option.some.injEq]
    ring
  rw [slopeCell, hx, hy]
  simp [vMul, vAdd, vSqrt, vArctan, vDeg, degOf]

/-- C3 (amended): on a perfectly flat rectangular grid, every cell outside
the border invalid-marker ring has slope 0 (under either kernel family) and
aspect −1; the claim's "aspect is −1 at every cell" is cut back to the
interior, since the border ring of the aspect grid carries the invalid
marker, exactly as the slope grid's does. -/
theorem flat_slope_zero_aspect_sentinel (g : Grid) (H W : ℕ) (v cs : ℝ)
    (hR : Rect g H W) (hF : Flat g v) (r c : ℕ)
    (h1 : 1 ≤ r) (h2 : r + 1 < H) (h3 : 1 ≤ c) (h4 : c + 1 < W) :
    (∃ s, compute_slope g cs algZT = Except.ok s ∧
      cellAt s r c = some (some 0)) ∧
    (∃ s, compute_slope g cs algHorn = Except.ok s ∧
      cellAt s r c = some (some 0)) ∧
    cellAt (compute_aspect g cs) r c = some (some (-1)) := by
  have hrH : r < H := by omega
  have hcW : c < W := by omega
  have hw : gwidth g = W := gwidth_of_rect hR (by omega)
  have hlen : g.length = H := hR.1
  have hslope_zt : slopeCell g (ztKernelX cs) (ztKernelY cs) (r : ℤ) (c : ℤ) =
      some 0 :=
    slopeCell_flat_zt hR hF cs (by omega) (by omega) (by omega) (by omega)
  have hslope_horn :
      slopeCell g (hornKernelX cs) (hornKernelY cs) (r : ℤ) (c : ℤ) = some 0 :=
    slopeCell_flat_horn hR hF cs (by omega) (by omega) (by omega) (by omega)
  have hZ : compute_slope g cs algZT = Except.ok (gridOfFn g.length (gwidth g)
      (fun a b => slopeCell g (ztKernelX cs) (ztKernelY cs) a b)) := by
    rw [compute_slope, if_pos rfl]
  have hB : compute_slope g cs algHorn = Except.ok (gridOfFn g.length (gwidth g)
      (fun a b => slopeCell g (hornKernelX cs) (hornKernelY cs) a b)) := by
    rw [compute_slope, if_neg (by decide), if_pos rfl]
  refine ⟨⟨_, hZ, ?_⟩, ⟨_, hB, ?_⟩, ?_⟩
  · rw [hlen, hw, cellAt_gridOfFn H W _ r c hrH hcW, hslope_zt]
  · rw [hlen, hw, cellAt_gridOfFn H W _ r c hrH hcW, hslope_horn]
  · rw [compute_aspect, hlen, hw, cellAt_gridOfFn H W _ r c hrH hcW,
      aspectCell, hslope_zt]
    norm_num

/-- A perfectly flat 3×3 grid of elevation 7. -/
def gFlat3 : Grid :=
  [[some 7, some 7, some 7], [some 7, some 7, some 7], [some 7, some 7, some 7]]

/-- C3 (counterexample): on the flat grid `gFlat3`, the border cell (0,0) of
the aspect output is the invalid marker NaN, not the flat sentinel −1, so
"aspect is −1 at every cell (everywhere)" fails. -/
theorem flat_aspect_everywhere_counterexample :
    cellAt (compute_aspect gFlat3 1) 0 0 = some none ∧
    cellAt (compute_aspect gFlat3 1) 0 0 ≠ some (some (-1 : ℝ)) := by
  have h : cellAt (compute_aspect gFlat3 1) 0 0 =
      some (aspectCell gFlat3 1 0 0) := by
    rw [compute_aspect]
    exact cellAt_gridOfFn _ _ _ 0 0 (by simp [gFlat3]) (by simp [gFlat3, gwidth])
  have hmm : gget gFlat3 (0 - 1) (0 - 1) = none := rfl
  have hx : convCell gFlat3 (ztKernelX 1) 0 0 = none := by
    rw [convCell, hmm, vSmul_none]
    simp only [vAdd_none_right]
  have hy : convCell gFlat3 (ztKernelY 1) 0 0 = none := by
    rw [convCell, hmm, vSmul_none]
    simp only [vAdd_none_right]
  have hslope : slopeCell gFlat3 (ztKernelX 1) (ztKernelY 1) 0 0 = none := by
    rw [slopeCell, hx, hy]; rfl
  have hraw : aspectRawCell gFlat3 1 0 0 = none := by
    rw [aspectRawCell, hx, hy]
  have : aspectCell gFlat3 1 0 0 = none := by
    rw [aspectCell, hslope, hraw]
  rw [h, this]
  exact ⟨rfl, by simp⟩

/-- C3 (witness): the amended flat-grid theorem instantiated on `gFlat3`
at the interior cell (1,1). -/
theorem flat_slope_zero_aspect_sentinel_witness :
    (∃ s, compute_slope gFlat3 1 algZT = Except.ok s ∧
      cellAt s 1 1 = some (some 0)) ∧
    (∃ s, compute_slope gFlat3 1 algHorn = Except.ok s ∧
      cellAt s 1 1 = some (some 0)) ∧
    cellAt (compute_aspect gFlat3 1) 1 1 = some (some (-1)) :=
  flat_slope_zero_aspect_sentinel gFlat3 3 3 7 1
    (by constructor <;> simp [gFlat3]) (by simp [Flat, gFlat3])
    1 1 (by norm_num) (by norm_num) (by norm_num) (by norm_num)

/-- A 3×3 north-up plane tilted purely toward north: elevation `z[r][c] = r`
rises to the south, so the downhill (aspect) direction is due north and the
documented convention demands aspect 0°. -/
def gNorth : Grid :=
  [[some 0, some 0, some 0], [some 1, some 1, some 1], [some 2, some 2, some 2]]

/-- C2 (code bug): on the north-tilted plane `gNorth` the code produces
aspect 270° at the interior cell, not the 0° that its own docstring
(0°=North, 90°=East, 180°=South, 270°=West) and the spec demand.  The
`scipy.ndimage.convolve` kernel reflection negates both gradients and the
`atan2(grad_y, -grad_x)` argument order does not measure clockwise from
north, so the compass convention fails. -/
theorem aspect_north_gives_270 :
    cellAt (compute_aspect gNorth 1) 1 1 = some (some 270) ∧ (270 : ℝ) ≠ 0 := by
  have h : cellAt (compute_aspect gNorth 1) 1 1 =
      some (aspectCell gNorth 1 1 1) := by
    rw [compute_aspect]
    exact cellAt_gridOfFn _ _ _ 1 1 (by simp [gNorth]) (by simp [gNorth, gwidth])
  have e22 : gget gNorth (1 + 1) (1 + 1) = some 2 := rfl
  have e21 : gget gNorth (1 + 1) 1 = some 2 := rfl
  have e20 : gget gNorth (1 + 1) (1 - 1) = some 2 := rfl
  have e12 : gget gNorth 1 (1 + 1) = some 1 := rfl
  have e11 : gget gNorth 1 1 = some 1 := rfl
  have e10 : gget gNorth 1 (1 - 1) = some 1 := rfl
  have e02 : gget gNorth (1 - 1) (1 + 1) = some 0 := rfl
  have e01 : gget gNorth (1 - 1) 1 = some 0 := rfl
  have e00 : gget gNorth (1 - 1) (1 - 1) = some 0 := rfl
  have hpi := Real.pi_ne_zero
  have hx : convCell gNorth (ztKernelX 1) 1 1 = some 0 := by
    rw [convCell, e22, e21, e20, e12, e11, e10, e02, e01, e00]
    simp only [ztKernelX, vSmul, vAdd, Option.some.injEq]
    norm_num
  have hy : convCell gNorth (ztKernelY 1) 1 1 = some (-1) := by
    rw [convCell, e22, e21, e20, e12, e11, e10, e02, e01, e00]
    simp only [ztKernelY, vSmul, vAdd, Option.some.injEq]
    norm_num
  have hslope : slopeCell gNorth (ztKernelX 1) (ztKernelY 1) 1 1 = some 45 := by
    rw [slopeCell, hx, hy]
    simp only [vMul, vAdd, vSqrt, vArctan, vDeg, Option.map_some', Option.some.injEq]
    rw [show ((0 : ℝ) * 0 + -1 * -1) = 1 by norm_num, Real.sqrt_one,
      Real.arctan_one, degOf]
    field_simp
    ring
  have hat : atan2 (-1) (0 : ℝ) = -(Real.pi / 2) := by
    rw [atan2]
    norm_num
  have hdeg : degOf (-(Real.pi / 2)) = -90 := by
    rw [degOf]
    field_simp
    ring
  have hfloor : Int.floor ((270 : ℝ) / 360) = 0 := by
    rw [Int.floor_eq_zero_iff]
    constructor <;> norm_num
  have hraw : aspectRawCell gNorth 1 1 1 = some 270 := by
    rw [aspectRawCell, hy, hx]
    simp only [neg_zero, hat, hdeg, Option.some.injEq]
    rw [show (-90 : ℝ) + 360 = 270 by norm_num, rmod, hfloor]
    norm_num
  have : aspectCell gNorth 1 1 1 = some 270 := by
    rw [aspectCell, hslope]
    simp only [show ¬((45 : ℝ) < 1) by norm_num, if_false]
    exact hraw
  rw [h, this]
  exact ⟨rfl, by norm_num⟩

theorem gridDims_output {α : Type} {g : Grid} {H W : ℕ} (hR : Rect g H W)
    (f : ℕ → ℕ → α) : gridDims (gridOfFn g.length (gwidth g) f) H W := by
  rcases Nat.eq_zero_or_pos H with h0 | hpos
  · subst h0
    have hg : g = [] := List.length_eq_zero.mp hR.1
    subst hg
    exact ⟨rfl, by simp [gridOfFn]⟩
  · rw [hR.1, gwidth_of_rect hR hpos]
    exact gridDims_gridOfFn H W f

/-- C4: for every rectangular input grid, every interior cell of the TRI
output is the RMS elevation difference to its 8-connected neighbours
(`√(mean of (center − neighbour)²)`), and every in-bounds border-ring cell
is exactly 0 whatever the input holds. -/
theorem tri_interior_rms_border_zero (g : Grid) (H W : ℕ) (hR : Rect g H W)
    (r c : ℕ) (hr : r < H) (hc : c < W) :
    (1 ≤ r ∧ r + 1 < H ∧ 1 ≤ c ∧ c + 1 < W →
      cellAt (compute_tri g) r c = some (triRMS g r c)) ∧
    ((r = 0 ∨ r + 1 = H ∨ c = 0 ∨ c + 1 = W) →
      cellAt (compute_tri g) r c = some (some 0)) := by
  have hw : gwidth g = W := gwidth_of_rect hR (by omega)
  have hcell : cellAt (compute_tri g) r c = some (triCell g H W r c) := by
    rw [compute_tri, hR.1, hw]
    exact cellAt_gridOfFn H W _ r c hr hc
  constructor
  · intro hin
    rw [hcell, triCell, if_pos hin]
  · intro hb
    rw [hcell, triCell, if_neg (by omega)]

/-- A 3×3 strictly increasing test grid. -/
def gC4 : Grid :=
  [[some 1, some 2, some 3], [some 4, some 5, some 6], [some 7, some 8, some 9]]

/-- C4 (witness): the TRI theorem instantiated on `gC4` at the interior
cell (1,1). -/
theorem tri_interior_rms_border_zero_witness :
    (1 ≤ 1 ∧ 1 + 1 < 3 ∧ 1 ≤ 1 ∧ 1 + 1 < 3 →
      cellAt (compute_tri gC4) 1 1 = some (triRMS gC4 1 1)) ∧
    ((1 = 0 ∨ 1 + 1 = 3 ∨ 1 = 0 ∨ 1 + 1 = 3) →
      cellAt (compute_tri gC4) 1 1 = some (some 0)) :=
  tri_interior_rms_border_zero gC4 3 3
    (by constructor <;> simp [gC4]) 1 1 (by norm_num) (by norm_num)

/-- C10: for every rectangular input with fewer than 3 rows or fewer than 3
columns, the TRI computation still returns a same-shape grid and every cell
of it is 0 (the double loop's interior is empty), with no failure. -/
theorem tri_small_grid_all_zero (g : Grid) (H W : ℕ) (hR : Rect g H W)
    (hsmall : H < 3 ∨ W < 3) :
    gridDims (compute_tri g) H W ∧
    ∀ r c : ℕ, r < H → c < W → cellAt (compute_tri g) r c = some (some 0) := by
  constructor
  · exact gridDims_output hR _
  · intro r c hr hc
    have hw : gwidth g = W := gwidth_of_rect hR (by omega)
    have hcell : cellAt (compute_tri g) r c = some (triCell g H W r c) := by
      rw [compute_tri, hR.1, hw]
      exact cellAt_gridOfFn H W _ r c hr hc
    rw [hcell, triCell, if_neg (by omega)]

theorem rmod_nonneg (x : ℝ) {m : ℝ} (hm : 0 < m) : 0 ≤ rmod x m := by
  rw [rmod]
  have h1 : ((Int.floor (x / m) : ℤ) : ℝ) ≤ x / m := Int.floor_le _
  have h2 : m * ((Int.floor (x / m) : ℤ) : ℝ) ≤ m * (x / m) :=
    mul_le_mul_of_nonneg_left h1 (le_of_lt hm)
  have h3 : m * (x / m) = x := by field_simp
  linarith

theorem rmod_lt (x : ℝ) {m : ℝ} (hm : 0 < m) : rmod x m < m := by
  rw [rmod]
  have h1 : x / m < ((Int.floor (x / m) : ℤ) : ℝ) + 1 := Int.lt_floor_add_one _
  have h2 : m * (x / m) < m * (((Int.floor (x / m) : ℤ) : ℝ) + 1) :=
    (mul_lt_mul_left hm).mpr h1
  have h3 : m * (x / m) = x := by field_simp
  nlinarith

/-- C5 (amended): every in-bounds cell of an aspect grid is NaN exactly
where the internally recomputed Zevenbergen–Thorne slope is NaN (the border
invalid ring); elsewhere it is the flat sentinel −1 exactly where that
slope is below 1.0°, and otherwise an ordinary value in [0, 360). -/
theorem aspect_value_characterization (g : Grid) (H W : ℕ) (cs : ℝ)
    (hR : Rect g H W) (r c : ℕ) (hr : r < H) (hc : c < W) :
    ∃ a, cellAt (compute_aspect g cs) r c = some a ∧
      (a = none ↔ slopeCell g (ztKernelX cs) (ztKernelY cs) r c = none) ∧
      (a = some (-1) ↔
        ∃ sv, slopeCell g (ztKernelX cs) (ztKernelY cs) r c = some sv ∧ sv < 1) ∧
      (∀ x : ℝ, a = some x → x = -1 ∨ (0 ≤ x ∧ x < 360)) := by
  have hw : gwidth g = W := gwidth_of_rect hR (by omega)
  have hcell : cellAt (compute_aspect g cs) r c = some (aspectCell g cs r c) := by
    rw [compute_aspect, hR.1, hw]
    exact cellAt_gridOfFn H W _ r c hr hc
  refine ⟨aspectCell g cs r c, hcell, ?_⟩
  rcases hgx : convCell g (ztKernelX cs) r c with _ | gx
  · have hs : slopeCell g (ztKernelX cs) (ztKernelY cs) (r : ℤ) (c : ℤ) = none := by
      rw [slopeCell, hgx]; rfl
    have hraw : aspectRawCell g cs r c = none := by
      rw [aspectRawCell, hgx]
      rcases convCell g (ztKernelY cs) (r : ℤ) (c : ℤ) with _ | gy <;> rfl
    have ha : aspectCell g cs r c = none := by
      rw [aspectCell, hs, hraw]
    rw [ha, hs]
    simp
  · rcases hgy : convCell g (ztKernelY cs) r c with _ | gy
    · have hs : slopeCell g (ztKernelX cs) (ztKernelY cs) (r : ℤ) (c : ℤ) = none := by
        rw [slopeCell, hgx, hgy]; rfl
      have hraw : aspectRawCell g cs r c = none := by
        rw [aspectRawCell, hgy]
      have ha : aspectCell g cs r c = none := by
        rw [aspectCell, hs, hraw]
      rw [ha, hs]
      simp
    · have hs : slopeCell g (ztKernelX cs) (ztKernelY cs) (r : ℤ) (c : ℤ) =
          some (degOf (Real.arctan (Real.sqrt (gx * gx + gy * gy)))) := by
        rw [slopeCell, hgx, hgy]; rfl
      have hraw : aspectRawCell g cs r c =
          some (rmod (degOf (atan2 gy (-gx)) + 360) 360) := by
        rw [aspectRawCell, hgx, hgy]
      have hm0 : (0 : ℝ) ≤ rmod (degOf (atan2 gy (-gx)) + 360) 360 :=
        rmod_nonneg _ (by norm_num)
      have hm1 : rmod (degOf (atan2 gy (-gx)) + 360) 360 < 360 :=
        rmod_lt _ (by norm_num)
      by_cases hlt : degOf (Real.arctan (Real.sqrt (gx * gx + gy * gy))) < 1
      · have ha : aspectCell g cs r c = some (-1) := by
          rw [aspectCell, hs]
          show (if degOf (Real.arctan (Real.sqrt (gx * gx + gy * gy))) < 1 then
            some (-1) else aspectRawCell g cs r c) = some (-1)
          rw [if_pos hlt]
        rw [ha, hs]
        refine ⟨by simp, ⟨fun _ => ⟨_, rfl, hlt⟩, fun _ => rfl⟩, ?_⟩
        intro x hx
        exact Or.inl (by simpa using hx.symm)
      · have ha : aspectCell g cs r c =
            some (rmod (degOf (atan2 gy (-gx)) + 360) 360) := by
          rw [aspectCell, hs]
          show (if degOf (Real.arctan (Real.sqrt (gx * gx + gy * gy))) < 1 then
            some (-1) else aspectRawCell g cs r c) =
            some (rmod (degOf (atan2 gy (-gx)) + 360) 360)
          rw [if_neg hlt, hraw]
        rw [ha, hs]
        refine ⟨by simp, ⟨?_, ?_⟩, ?_⟩
        · intro hx
          have : rmod (degOf (atan2 gy (-gx)) + 360) 360 = -1 := by
            simpa using hx
          linarith
        · rintro ⟨sv, hsv, hsv1⟩
          have : sv = degOf (Real.arctan (Real.sqrt (gx * gx + gy * gy))) := by
            simpa using hsv.symm
          subst this
          exact absurd hsv1 hlt
        · intro x hx
          have hx' : x = rmod (degOf (atan2 gy (-gx)) + 360) 360 := by
            simpa using hx.symm
          subst hx'
          exact Or.inr ⟨hm0, hm1⟩

/-- The 1×1 grid whose single cell is entirely border ring. -/
def gC5 : Grid := [[some 0]]

/-- C5 (counterexample): on the 1×1 grid `gC5` the single aspect cell is
NaN — neither the flat sentinel −1 nor a value in [0, 360) — so the claim
"every cell is −1 or in [0, 360)" fails as stated. -/
theorem aspect_value_claim_counterexample : ¬ aspectClaimC5 gC5 1 1 := by
  intro h
  obtain ⟨a, ha, hok⟩ := h 0 0 (by norm_num) (by norm_num)
  have hcell : cellAt (compute_aspect gC5 1) 0 0 =
      some (aspectCell gC5 1 0 0) := by
    rw [compute_aspect]
    exact cellAt_gridOfFn _ _ _ 0 0 (by simp [gC5]) (by simp [gC5, gwidth])
  have hmm : gget gC5 (0 - 1) (0 - 1) = none := rfl
  have hx : convCell gC5 (ztKernelX 1) 0 0 = none := by
    rw [convCell, hmm, vSmul_none]
    simp only [vAdd_none_right]
  have hy : convCell gC5 (ztKernelY 1) 0 0 = none := by
    rw [convCell, hmm, vSmul_none]
    simp only [vAdd_none_right]
  have hslope : slopeCell gC5 (ztKernelX 1) (ztKernelY 1) 0 0 = none := by
    rw [slopeCell, hx, hy]; rfl
  have hraw : aspectRawCell gC5 1 0 0 = none := by
    rw [aspectRawCell, hx, hy]
  have hnone : aspectCell gC5 1 0 0 = none := by
    rw [aspectCell, hslope, hraw]
  rw [hcell, hnone] at ha
  have : a = none := by simpa using ha.symm
  subst this
  simp [aspectValueOK] at hok

/-- C5 (witness): the characterization instantiated on `gC5` at (0,0). -/
theorem aspect_value_characterization_witness :
    ∃ a, cellAt (compute_aspect gC5 1) 0 0 = some a ∧
      (a = none ↔ slopeCell gC5 (ztKernelX 1) (ztKernelY 1) 0 0 = none) ∧
      (a = some (-1) ↔
        ∃ sv, slopeCell gC5 (ztKernelX 1) (ztKernelY 1) 0 0 = some sv ∧ sv < 1) ∧
      (∀ x : ℝ, a = some x → x = -1 ∨ (0 ≤ x ∧ x < 360)) :=
  aspect_value_characterization gC5 1 1 1
    (by constructor <;> simp [gC5]) 0 0 (by norm_num) (by norm_num)

/-- C6: the aspect product of the pipeline is the same grid — including
which cells receive the flat sentinel −1 — whatever slope algorithm the
caller selected: `compute_aspect` takes no algorithm argument and always
uses the Zevenbergen–Thorne kernels. -/
theorem aspect_independent_of_slope_algorithm :
    ∀ (a1 a2 : String) (dtm : Grid),
      pipelineAspect a1 dtm = pipelineAspect a2 dtm :=
  fun _ _ _ => rfl

theorem gget_of_cellAt {g : Grid} {r c : ℕ} {v : V} (h : cellAt g r c = some v) :
    gget g (r : ℤ) (c : ℤ) = v := by
  rw [gget, if_neg (by omega), Int.toNat_natCast, Int.toNat_natCast]
  rcases hrow : g[r]? with _ | row
  · exfalso
    rw [cellAt, hrow] at h
    exact Option.noConfusion h
  · have h2 : row[c]? = some v := by
      have h3 := h
      rw [cellAt, hrow] at h3
      exact h3
    simp [h2]

/-- C7: any slope cell holding exactly 20.0° is coloured yellow
(255,255,0) by the `skitour` scheme — the bins are half-open
`[edge[i], edge[i+1])` intervals, so 20.0 falls in `[20,45)`, not in
`[0,20)`. -/
theorem skitour_20_is_yellow (g : Grid) (H W : ℕ) (hR : Rect g H W)
    (r c : ℕ) (hr : r < H) (hc : c < W)
    (hv : cellAt g r c = some (some 20)) :
    ∃ rgb, colorize_slope g schemeSkitour = Except.ok rgb ∧
      cellAt rgb r c = some ((255, 255, 0) : RGB) := by
  have hok : colorize_slope g schemeSkitour =
      Except.ok (gridOfFn g.length (gwidth g)
        (fun a b => classifyCell skitourTable (gget g a b))) := by
    rw [colorize_slope, if_pos rfl]
  refine ⟨_, hok, ?_⟩
  rw [hR.1, gwidth_of_rect hR (by omega), cellAt_gridOfFn H W _ r c hr hc,
    gget_of_cellAt hv]
  have : classifyCell skitourTable (some 20) = (255, 255, 0) := by
    rw [classifyCell, skitourTable]
    simp only [List.foldl]
    split_ifs <;> first | rfl | (exfalso; norm_num at *)
  rw [this]

/-- The 1×1 slope grid holding exactly 20.0°. -/
def gC7 : Grid := [[some 20]]

/-- C7 (witness): the boundary theorem instantiated on `gC7` at (0,0). -/
theorem skitour_20_is_yellow_witness :
    ∃ rgb, colorize_slope gC7 schemeSkitour = Except.ok rgb ∧
      cellAt rgb 0 0 = some ((255, 255, 0) : RGB) :=
  skitour_20_is_yellow gC7 1 1 (by constructor <;> simp [gC7])
    0 0 (by norm_num) (by norm_num) rfl

/-- C8: any algorithm name other than `zevenbergen_thorne`/`horn` makes
`compute_slope` fail with the invalid-configuration error and no grid, and
any scheme name other than `skitour`/`climbing` makes `colorize_slope` fail
the same way: in both cases the result is the error alone, no partial
output. -/
theorem unknown_names_rejected :
    (∀ (dtm : Grid) (cs : ℝ) (alg : String), alg ≠ algZT → alg ≠ algHorn →
      compute_slope dtm cs alg = Except.error ("Unknown algorithm: " ++ alg)) ∧
    (∀ (g : Grid) (alg : String), alg ≠ schemeSkitour → alg ≠ schemeClimbing →
      colorize_slope g alg = Except.error ("Unknown algorithm: " ++ alg)) := by
  constructor
  · intro dtm cs alg h1 h2
    rw [compute_slope, if_neg h1, if_neg h2]
  · intro g alg h1 h2
    rw [colorize_slope, if_neg h1, if_neg h2]

/-- C8 (witness): concrete unknown names are rejected. -/
theorem unknown_names_rejected_witness :
    compute_slope [] 1 ("sobel") =
      Except.error ("Unknown algorithm: " ++ "sobel") ∧
    colorize_slope [] ("viridis") =
      Except.error ("Unknown algorithm: " ++ "viridis") :=
  ⟨unknown_names_rejected.1 [] 1 ("sobel") (by decide) (by decide),
   unknown_names_rejected.2 [] ("viridis") (by decide) (by decide)⟩

theorem gridDims_map {α β : Type} {x : List (List α)} {H W : ℕ}
    (h : gridDims x H W) (f : α → β) :
    gridDims (x.map (fun row => row.map f)) H W := by
  constructor
  · simp [h.1]
  · intro row hrow
    simp only [List.mem_map] at hrow
    obtain ⟨row0, hr0, rfl⟩ := hrow
    simp [h.2 row0 hr0]

/-- C9: every derived product of an `H × W` rectangular input has the same
`H × W` shape — the slope grids of both algorithms, the aspect grid, the
TRI grid, and each of the three bands of every colorized output. -/
theorem derived_grids_preserve_dims (g : Grid) (H W : ℕ) (cs : ℝ)
    (hR : Rect g H W) :
    (∃ s, compute_slope g cs algZT = Except.ok s ∧ gridDims s H W) ∧
    (∃ s, compute_slope g cs algHorn = Except.ok s ∧ gridDims s H W) ∧
    gridDims (compute_aspect g cs) H W ∧
    gridDims (compute_tri g) H W ∧
    (∃ rgb, colorize_slope g schemeSkitour = Except.ok rgb ∧
      gridDims (bandR rgb) H W ∧ gridDims (bandG rgb) H W ∧
      gridDims (bandB rgb) H W) ∧
    (∃ rgb, colorize_slope g schemeClimbing = Except.ok rgb ∧
      gridDims (bandR rgb) H W ∧ gridDims (bandG rgb) H W ∧
      gridDims (bandB rgb) H W) ∧
    (gridDims (bandR (colorize_aspect g)) H W ∧
     gridDims (bandG (colorize_aspect g)) H W ∧
     gridDims (bandB (colorize_aspect g)) H W) := by
  have hZ : compute_slope g cs algZT = Except.ok (gridOfFn g.length (gwidth g)
      (fun a b => slopeCell g (ztKernelX cs) (ztKernelY cs) a b)) := by
    rw [compute_slope, if_pos rfl]
  have hB : compute_slope g cs algHorn = Except.ok (gridOfFn g.length (gwidth g)
      (fun a b => slopeCell g (hornKernelX cs) (hornKernelY cs) a b)) := by
    rw [compute_slope, if_neg (by decide), if_pos rfl]
  have hS : colorize_slope g schemeSkitour =
      Except.ok (gridOfFn g.length (gwidth g)
        (fun a b => classifyCell skitourTable (gget g a b))) := by
    rw [colorize_slope, if_pos rfl]
  have hC : colorize_slope g schemeClimbing =
      Except.ok (gridOfFn g.length (gwidth g)
        (fun a b => classifyCell climbingTable (gget g a b))) := by
    rw [colorize_slope, if_neg (by decide), if_pos rfl]
  refine ⟨⟨_, hZ, gridDims_output hR _⟩, ⟨_, hB, gridDims_output hR _⟩,
    gridDims_output hR _, gridDims_output hR _,
    ⟨_, hS, ?_, ?_, ?_⟩, ⟨_, hC, ?_, ?_, ?_⟩, ?_, ?_, ?_⟩ <;>
    exact gridDims_map (gridDims_output hR _) _

/-- A 1×1 input grid for the shape witness. -/
def gC9 : Grid := [[some 4]]

/-- C9 (witness): the shape theorem instantiated on the 1×1 grid `gC9`. -/
theorem derived_grids_preserve_dims_witness :
    (∃ s, compute_slope gC9 1 algZT = Except.ok s ∧ gridDims s 1 1) ∧
    (∃ s, compute_slope gC9 1 algHorn = Except.ok s ∧ gridDims s 1 1) ∧
    gridDims (compute_aspect gC9 1) 1 1 ∧
    gridDims (compute_tri gC9) 1 1 ∧
    (∃ rgb, colorize_slope gC9 schemeSkitour = Except.ok rgb ∧
      gridDims (bandR rgb) 1 1 ∧ gridDims (bandG rgb) 1 1 ∧
      gridDims (bandB rgb) 1 1) ∧
    (∃ rgb, colorize_slope gC9 schemeClimbing = Except.ok rgb ∧
      gridDims (bandR rgb) 1 1 ∧ gridDims (bandG rgb) 1 1 ∧
      gridDims (bandB rgb) 1 1) ∧
    (gridDims (bandR (colorize_aspect gC9)) 1 1 ∧
     gridDims (bandG (colorize_aspect gC9)) 1 1 ∧
     gridDims (bandB (colorize_aspect gC9)) 1 1) :=
  derived_grids_preserve_dims gC9 1 1 1 (by constructor <;> simp [gC9])

/-- A 1×2 grid: too small for any TRI interior. -/
def gC10 : Grid := [[some 3, some 8]]

/-- C10 (witness): the small-grid theorem instantiated on the 1×2 grid
`gC10`, checking the cell (0,1). -/
theorem tri_small_grid_all_zero_witness :
    (gridDims (compute_tri gC10) 1 2 ∧
      ∀ r c : ℕ, r < 1 → c < 2 →
        cellAt (compute_tri gC10) r c = some (some 0)) ∧
    cellAt (compute_tri gC10) 0 1 = some (some 0) := by
  have h := tri_small_grid_all_zero gC10 1 2
    (by constructor <;> simp [gC10]) (Or.inl (by norm_num))
  exact ⟨h, h.2 0 1 (by norm_num) (by norm_num)⟩

end
